import Mathlib

/-!
# Verification of the Bali HSM proxy core (`src/v1/HSMProxy.js`, protocol v2)

This file is a shallow embedding of the core of the `js-bali-hsm-proxy`
repository: the binary request framing (`formatRequest`), the block
segmentation and bounded-retry transport loop (`processRequest` and its
helpers), and the persistent key-lifecycle operations (`generateKeys`,
`rotateKeys`, `signBytes`, `eraseKeys`) together with the finite state
machine defined by the `REQUESTS`/`STATES` tables.

Byte buffers are modelled as `List Nat`; JavaScript bitwise operations on
lengths and indices are kept literally (`&&&`, `>>>`).  Asynchronous I/O is
modelled by explicit oracles: the outcome of the single HSM exchange of a
lifecycle operation is an `Option Bytes` parameter, and the BLE environment
of each transport attempt is a record of step outcomes.  Persistence is
modelled by threading the in-memory configuration and the on-disk record
explicitly through each operation.
-/

namespace HSMProxy

/-- Byte strings (the contents of a nodejs `Buffer`) are lists of naturals. -/
abbrev Bytes := List Nat

/-- Source: `const KEY_SIZE = 32;  // bytes` -/
def KEY_SIZE : Nat := 32

/-- Source: `const BLOCK_SIZE = 510;  // the maximum MTU size minus the two header bytes` -/
def BLOCK_SIZE : Nat := 510

/-- The six request types accepted by `formatRequest`. -/
inductive HsmOp where
  | generateKeys
  | rotateKeys
  | eraseKeys
  | digestBytes
  | signBytes
  | validSignature
deriving DecidableEq, Repr

/-- The `switch (type)` at the top of `formatRequest`, mapping each request
type name to its numeric op code. -/
def HsmOp.code : HsmOp → Nat
  | .generateKeys => 1
  | .rotateKeys => 2
  | .eraseKeys => 3
  | .digestBytes => 4
  | .signBytes => 5
  | .validSignature => 6

/-- The `args.forEach` loop of `formatRequest`: each argument contributes two
length bytes `(length & 0xFF00) >> 8` and `length & 0xFF` followed by the
argument bytes themselves, appended left to right. -/
def encodeArgs : List Bytes → Bytes
  | [] => []
  | arg :: rest =>
      ((arg.length &&& 0xFF00) >>> 8) :: (arg.length &&& 0xFF) ::
        (arg ++ encodeArgs rest)

/-- Translation of `formatRequest` from `HSMProxy.js` (v2): the buffer starts with
`[type & 0xFF, args.length & 0xFF]` and then the encoded arguments. -/
def formatRequest (type : HsmOp) (args : List Bytes) : Bytes :=
  (type.code &&& 0xFF) :: (args.length &&& 0xFF) :: encodeArgs args

/-- Translation of `var block = Math.ceil((request.length - 2) / BLOCK_SIZE) - 1;`, the
starting index of the extra-block loop in `processRequest`.  For a positive
divisor `b`, `Math.ceil(a / b) = (a + b - 1).ediv b`, so the ceiling is
written with Euclidean division. -/
def initialBlockIndex (L : Nat) : Int :=
  Int.ediv ((L : Int) - 2 + ((BLOCK_SIZE : Int) - 1)) (BLOCK_SIZE : Int) - 1

/-- The number of iterations of `while (block > 0) { ...; block--; }`:
the loop visits `block = initialBlockIndex L, ..., 1` and runs zero times
when `initialBlockIndex L ≤ 0`. -/
def numExtraBlocks (L : Nat) : Nat := (initialBlockIndex L).toNat

/-- The body of the extra-block loop of `processRequest`: with
`offset = block * BLOCK_SIZE + 2` and
`blockSize = Math.min(request.length - offset, BLOCK_SIZE)`, the buffer
written is `[0x00, block & 0xFF]` prepended to
`request.slice(offset, offset + blockSize)`. -/
def extraBlock (request : Bytes) (k : Nat) : Bytes :=
  let offset := k * BLOCK_SIZE + 2
  let blockSize := min (request.length - offset) BLOCK_SIZE
  0 :: (k &&& 0xFF) :: ((request.drop offset).take blockSize)

/-- The indices visited by the extra-block loop, in execution order
`initialBlockIndex, initialBlockIndex - 1, ..., 1`. -/
def extraBlockIndices (L : Nat) : List Nat :=
  ((List.range (numExtraBlocks L)).map (fun i => i + 1)).reverse

/-- The sequence of buffers handed to `processBlock` by one attempt of
`processRequest`, in execution order: the extra blocks in reverse index
order followed by the primary block
`request.slice(0, Math.min(request.length, BLOCK_SIZE + 2))`. -/
def sentBlocks (request : Bytes) : List Bytes :=
  (extraBlockIndices request.length).map (extraBlock request) ++
    [request.take (BLOCK_SIZE + 2)]

/-- The three lifecycle states of the `STATES` table. -/
inductive HsmState where
  | keyless
  | loneKey
  | twoKeys
deriving DecidableEq, Repr

/-- The three request types of the `REQUESTS` table. -/
inductive HsmEvent where
  | generateKeys
  | signBytes
  | rotateKeys
deriving DecidableEq, Repr

/-- The `STATES` table of `HSMProxy.js` (v2): for each current state, the
allowed next state for each of `$generateKeys`, `$signBytes`,
`$rotateKeys`, with `none` for the `undefined` cells. -/
def nextState : HsmState → HsmEvent → Option HsmState
  | .keyless, .generateKeys => some .loneKey
  | .keyless, .signBytes => none
  | .keyless, .rotateKeys => none
  | .loneKey, .generateKeys => none
  | .loneKey, .signBytes => some .loneKey
  | .loneKey, .rotateKeys => some .twoKeys
  | .twoKeys, .generateKeys => none
  | .twoKeys, .signBytes => some .loneKey
  | .twoKeys, .rotateKeys => none

/-- Model of `controller.validateEvent(event)`: the event is allowed exactly when the
`STATES` cell for the current state is defined; otherwise the controller
throws before anything else happens. -/
def validateEvent (s : HsmState) (e : HsmEvent) : Bool :=
  (nextState s e).isSome

/-- Model of `controller.transitionState(event)`: returns the next state from the
table (always defined after a successful `validateEvent`). -/
def transitionState (s : HsmState) (e : HsmEvent) : HsmState :=
  (nextState s e).getD s

/-- The persisted configuration record: the fields of the `bali.catalog`
that the lifecycle operations read or write (`$tag`, `$state`, `$proxyKey`,
`$previousProxyKey`).  `none` models an absent field. -/
structure Configuration where
  tag : Nat
  state : HsmState
  proxyKey : Option Bytes := none
  previousProxyKey : Option Bytes := none
deriving DecidableEq, Repr

/-- The state ⇔ keys invariant of the data model: each lifecycle state is
characterised by which of the two key fields are present. -/
def stateKeysInvariant (cfg : Configuration) : Prop :=
  (cfg.state = .keyless ↔ cfg.proxyKey = none ∧ cfg.previousProxyKey = none) ∧
  (cfg.state = .loneKey ↔ cfg.proxyKey.isSome ∧ cfg.previousProxyKey = none) ∧
  (cfg.state = .twoKeys ↔ cfg.proxyKey.isSome ∧ cfg.previousProxyKey.isSome)

instance (cfg : Configuration) : Decidable (stateKeysInvariant cfg) := by
  unfold stateKeysInvariant
  infer_instance

/-- The errors a lifecycle operation can throw in the model. -/
inductive ProxyError where
  /-- Raised when `controller.validateEvent` rejected the event. -/
  | invalidState
  /-- Raised when `processRequest` threw (the HSM exchange failed). -/
  | requestFailed
  /-- Raised when a key field the operation reads was absent (a `TypeError` in JS). -/
  | missingKey
deriving DecidableEq, Repr

/-- The value a lifecycle operation produces: the bytes returned by the HSM,
or the error thrown. -/
inductive OpValue where
  | ok (response : Bytes)
  | err (e : ProxyError)
deriving DecidableEq, Repr

/-- The observable outcome of one lifecycle operation: its value, the
in-memory `configuration` afterwards (`none` = `undefined`), the persisted
record afterwards (`none` = no file), and the request buffer handed to
`processRequest` (`none` when the operation threw before contacting the
HSM). -/
structure Outcome where
  value : OpValue
  mem : Option Configuration
  disk : Option Configuration
  sent : Option Bytes
deriving DecidableEq, Repr

/-- Translation of `this.generateKeys` (v2), for a loaded configuration `cfg` whose
persisted copy is `disk`.  `newKey` stands for the
`crypto.randomBytes(KEY_SIZE)` result and `hsm` for the outcome of
`processRequest` (`none` = the exchange threw).  The order of effects
follows the source: `validateEvent`, format and send the request, then
`setValue($proxyKey)`, `transitionState`, `setValue($state)` and
`storeConfiguration`. -/
def generateKeysOp (cfg : Configuration) (disk : Option Configuration)
    (newKey : Bytes) (hsm : Option Bytes) : Outcome :=
  if ¬ validateEvent cfg.state .generateKeys then
    ⟨.err .invalidState, some cfg, disk, none⟩
  else
    let request := formatRequest .generateKeys [newKey]
    match hsm with
    | none => ⟨.err .requestFailed, some cfg, disk, some request⟩
    | some publicKey =>
        let cfg' := { cfg with
          proxyKey := some newKey
          state := transitionState cfg.state .generateKeys }
        ⟨.ok publicKey, some cfg', some cfg', some request⟩

/-- Translation of `this.rotateKeys` (v2).  The source copies `$proxyKey` into
`$previousProxyKey` in the in-memory configuration *before* the exchange;
only after a successful exchange does it write the new `$proxyKey`, the new
`$state` and store the record. -/
def rotateKeysOp (cfg : Configuration) (disk : Option Configuration)
    (newKey : Bytes) (hsm : Option Bytes) : Outcome :=
  if ¬ validateEvent cfg.state .rotateKeys then
    ⟨.err .invalidState, some cfg, disk, none⟩
  else
    match cfg.proxyKey with
    | none => ⟨.err .missingKey, some cfg, disk, none⟩
    | some previousProxyKey =>
        let cfg1 := { cfg with previousProxyKey := some previousProxyKey }
        let request := formatRequest .rotateKeys [previousProxyKey, newKey]
        match hsm with
        | none => ⟨.err .requestFailed, some cfg1, disk, some request⟩
        | some publicKey =>
            let cfg2 := { cfg1 with
              proxyKey := some newKey
              state := transitionState cfg1.state .rotateKeys }
            ⟨.ok publicKey, some cfg2, some cfg2, some request⟩

/-- Translation of `this.signBytes` (v2).  The source removes `$previousProxyKey` from the
in-memory configuration *before* the exchange and uses it as the signing
key when it was present, falling back to `$proxyKey`; only after a
successful exchange does it write the new `$state` and store the record. -/
def signBytesOp (cfg : Configuration) (disk : Option Configuration)
    (bytes : Bytes) (hsm : Option Bytes) : Outcome :=
  if ¬ validateEvent cfg.state .signBytes then
    ⟨.err .invalidState, some cfg, disk, none⟩
  else
    let cfg1 :=
      match cfg.previousProxyKey with
      | some _ => { cfg with previousProxyKey := none }
      | none => cfg
    let proxyKey :=
      match cfg.previousProxyKey with
      | some k => some k
      | none => cfg.proxyKey
    match proxyKey with
    | none => ⟨.err .missingKey, some cfg1, disk, none⟩
    | some key =>
        let request := formatRequest .signBytes [key, bytes]
        match hsm with
        | none => ⟨.err .requestFailed, some cfg1, disk, some request⟩
        | some signature =>
            let cfg2 := { cfg1 with
              state := transitionState cfg1.state .signBytes }
            ⟨.ok signature, some cfg2, some cfg2, some request⟩

/-- Translation of `this.eraseKeys` (v2): no state check and no configuration load; the
request is sent first, and only on success is the persisted record deleted
and the in-memory configuration cleared. -/
def eraseKeysOp (mem : Option Configuration) (disk : Option Configuration)
    (hsm : Option Bytes) : Outcome :=
  let request := formatRequest .eraseKeys []
  match hsm with
  | none => ⟨.err .requestFailed, mem, disk, some request⟩
  | some response => ⟨.ok response, none, none, some request⟩

/-- The observable BLE transport events of one `processRequest` run:
a successful `connect`, a completed write of one block, and a completed
`disconnect`. -/
inductive BleEvent where
  | connected
  | wroteBlock (block : Bytes)
  | disconnected
deriving DecidableEq, Repr

/-- The causes an attempt of `processRequest` can throw. -/
inductive Cause where
  /-- Raised when `findPeripheral` timed out (`No ArmorD found.`). -/
  | peripheralNotFound
  /-- Raised when `peripheral.connect` reported an error. -/
  | connectFailed
  /-- Raised when `discoverService` did not find exactly one UART service. -/
  | serviceNotFound
  /-- Raised when the write or notify characteristic was missing. -/
  | missingCharacteristics
  /-- Raised when `processBlock` read a one-byte response greater than 1. -/
  | blockRejected (code : Nat)
deriving DecidableEq, Repr

/-- The terminal errors of `processRequest` itself. -/
inductive RequestError where
  /-- Raised when the retry budget is exhausted
  (`Request failed too many times: cause`). -/
  | retryExhausted (cause : Cause)
  /-- Models the `while` guard turning false, after which the JS function
  would return `undefined`; unreachable from a fresh call. -/
  | loopExited
deriving DecidableEq, Repr

/-- The environment one attempt runs in: whether each asynchronous step
succeeds, and the notification read after the i-th block write of the
attempt. -/
structure AttemptEnv where
  peripheralFound : Bool
  connectSucceeds : Bool
  serviceFound : Bool
  hasCharacteristics : Bool
  blockResponse : Nat → Bytes

/-- The result of one attempt (or one whole request): a response buffer or
a thrown cause. -/
inductive ExchangeResult where
  | ok (response : Bytes)
  | fail (cause : Cause)
deriving DecidableEq, Repr

/-- The block loop of one attempt: each block is written and its
notification awaited; `processBlock` rejects when the response has length 1
and its byte exceeds 1, aborting the attempt; otherwise the response of the
last (primary) block is returned.  The second component records the blocks
actually written. -/
def sendBlocks (env : AttemptEnv) : Nat → List Bytes → ExchangeResult × List BleEvent
  | _, [] => (.ok [], [])
  | i, block :: rest =>
      let response := env.blockResponse i
      if response.length = 1 ∧ 1 < response.headD 0 then
        (.fail (.blockRejected (response.headD 0)), [.wroteBlock block])
      else
        match rest with
        | [] => (.ok response, [.wroteBlock block])
        | _ :: _ =>
            let next := sendBlocks env (i + 1) rest
            (next.1, .wroteBlock block :: next.2)

/-- The body of the `try` of one iteration of the `processRequest` loop:
find the peripheral, connect, discover the service and characteristics,
send all blocks, and disconnect before returning the response.  When the
characteristics are missing the source disconnects and then throws; when a
block is rejected the attempt throws while still connected. -/
def runAttempt (request : Bytes) (env : AttemptEnv) : ExchangeResult × List BleEvent :=
  if ¬ env.peripheralFound then (.fail .peripheralNotFound, [])
  else if ¬ env.connectSucceeds then (.fail .connectFailed, [])
  else if ¬ env.serviceFound then (.fail .serviceNotFound, [.connected])
  else if ¬ env.hasCharacteristics then
    (.fail .missingCharacteristics, [.connected, .disconnected])
  else
    match sendBlocks env 0 (sentBlocks request) with
    | (.ok response, events) =>
        (.ok response, .connected :: (events ++ [.disconnected]))
    | (.fail cause, events) => (.fail cause, .connected :: events)

/-- The retry loop of `processRequest`: `var tryAgain = 3; while (tryAgain--)`.
`fuel` is the value of `tryAgain` inside the `catch` clause and `i` numbers
the attempts.  On an exception with fuel left, the peripheral (when one was
found) is disconnected and the loop continues; with no fuel left the error
is rethrown as `retryExhausted` without disconnecting. -/
def processRequestGo (request : Bytes) (envs : Nat → AttemptEnv) :
    Nat → Nat → (ExchangeResult ⊕ RequestError) × List BleEvent
  | 0, _ => (.inr .loopExited, [])
  | fuel + 1, i =>
      let env := envs i
      match runAttempt request env with
      | (.ok response, events) => (.inl (.ok response), events)
      | (.fail cause, events) =>
          if fuel = 0 then (.inr (.retryExhausted cause), events)
          else
            let caught := if env.peripheralFound then events ++ [.disconnected] else events
            let rest := processRequestGo request envs fuel (i + 1)
            (rest.1, caught ++ rest.2)

/-- Model of `processRequest` (v2): three attempts of the environment
sequence `envs`, returning the response or the terminal error together with
the full BLE event trace. -/
def processRequest (request : Bytes) (envs : Nat → AttemptEnv) :
    (ExchangeResult ⊕ RequestError) × List BleEvent :=
  processRequestGo request envs 3 0

/-- Whether a BLE event trace leaves the peripheral connected at its end. -/
def connectedAfter (events : List BleEvent) : Bool :=
  events.foldl
    (fun connected event =>
      match event with
      | .connected => true
      | .disconnected => false
      | .wroteBlock _ => connected)
    false

example : numExtraBlocks 512 = 0 := by decide
example : numExtraBlocks 513 = 1 := by decide
example : numExtraBlocks 1200 = 2 := by decide
example : numExtraBlocks 1 = 0 := by decide
example : numExtraBlocks 0 = 0 := by decide
example : formatRequest .eraseKeys [] = [3, 0] := by decide
example : formatRequest .signBytes [[7, 8], [9]] = [5, 2, 0, 2, 7, 8, 0, 1, 9] := by
  decide

/-! ## Bridge lemmas

The JavaScript bitwise operations on lengths and block indices are related
to division and remainder, and the integer-valued starting block index is
related to its natural-number form. -/

theorem and_255_eq_mod (n : Nat) : n &&& 255 = n % 256 := by
  have h := Nat.and_pow_two_sub_one_eq_mod n 8
  norm_num at h
  exact h

theorem and_ff00_shiftRight_eq (n : Nat) : (n &&& 0xFF00) >>> 8 = n / 256 % 256 := by
  have hb : ∀ j : Nat, Nat.testBit 65280 (8 + j) = Nat.testBit 255 j := by
    intro j
    rw [show (65280 : Nat) = 255 <<< 8 from rfl, Nat.testBit_shiftLeft]
    simp
  have h : (n &&& 0xFF00) >>> 8 = (n >>> 8) &&& 255 := by
    apply Nat.eq_of_testBit_eq
    intro j
    simp only [Nat.testBit_shiftRight, Nat.testBit_and, hb]
  rw [h, Nat.shiftRight_eq_div_pow, and_255_eq_mod]

theorem numExtraBlocks_eq (L : Nat) : numExtraBlocks L = (L - 3) / 510 := by
  have h : numExtraBlocks L = (((L : Int) - 2 + 509) / 510 - 1).toNat := rfl
  rw [h]
  omega

theorem range_map_succ_reverse (n : Nat) :
    ((List.range n).map (fun i => i + 1)).reverse
      = (List.range n).map (fun i => n - i) := by
  induction n with
  | zero => rfl
  | succ n ih =>
      conv_lhs => rw [List.range_succ]
      conv_rhs => rw [List.range_succ_eq_map]
      simp only [List.map_append, List.reverse_append, List.map_cons, List.map_nil,
        List.reverse_cons, List.reverse_nil, List.nil_append, List.map_map, ih,
        List.cons_append, Nat.sub_zero]
      congr 1
      exact List.map_congr_left (fun i _ => by simp only [Function.comp_apply]; omega)

/-- **C4** (block segmentation).  For a request body of length `L`: when
`L ≤ BLOCK_SIZE + 2 = 512` exactly one block is written, the body itself
with no continuation header; when `L > 512` exactly `⌈(L - 2) / 510⌉`
blocks are written, the extra blocks first in reverse index order
`k = B, B - 1, ..., 1`, each being the header `[0x00, k % 256]` followed by
the `min (L - (510 * k + 2)) 510` body bytes starting at offset
`510 * k + 2`, and the primary block, the first `min L 512` bytes of the
body, written last. -/
theorem sentBlocks_segmentation (request : Bytes) :
    (request.length ≤ 512 → sentBlocks request = [request]) ∧
    (512 < request.length →
      (sentBlocks request).length = (request.length - 2 + 509) / 510 ∧
      sentBlocks request =
        ((List.range ((request.length - 3) / 510)).map
            (fun i => (request.length - 3) / 510 - i)).map
          (fun k =>
            0 :: k % 256 ::
              ((request.drop (510 * k + 2)).take
                (min (request.length - (510 * k + 2)) 510))) ++
          [request.take 512]) := by
  have hidx : extraBlockIndices request.length
      = (List.range ((request.length - 3) / 510)).map
          (fun i => (request.length - 3) / 510 - i) := by
    rw [extraBlockIndices, numExtraBlocks_eq, range_map_succ_reverse]
  have hblock : ∀ k : Nat,
      extraBlock request k =
        0 :: k % 256 ::
          ((request.drop (510 * k + 2)).take
            (min (request.length - (510 * k + 2)) 510)) := by
    intro k
    show 0 :: (k &&& 0xFF) :: _ = _
    rw [show (0xFF : Nat) = 255 from rfl, and_255_eq_mod]
    rw [show k * BLOCK_SIZE + 2 = 510 * k + 2 by rw [Nat.mul_comm]; rfl]
    rfl
  constructor
  · intro hle
    have h0 : numExtraBlocks request.length = 0 := by
      rw [numExtraBlocks_eq]; omega
    rw [sentBlocks, extraBlockIndices, h0]
    rw [show BLOCK_SIZE + 2 = 512 from rfl]
    simp [List.take_of_length_le hle]
  · intro hgt
    constructor
    · rw [sentBlocks]
      simp only [List.length_append, List.length_map, List.length_cons,
        List.length_nil, extraBlockIndices, List.length_reverse,
        List.length_range, numExtraBlocks_eq]
      omega
    · rw [sentBlocks, hidx]
      congr 1
      exact List.map_congr_left (fun k _ => hblock k)

/-- Witness for C4: a 100-byte body is sent as a single block, and a
1200-byte body is split into `⌈1198 / 510⌉ = 3` blocks. -/
theorem sentBlocks_segmentation_witness :
    sentBlocks (List.replicate 100 7) = [List.replicate 100 7] ∧
    (sentBlocks (List.replicate 1200 7)).length =
      ((List.replicate 1200 7).length - 2 + 509) / 510 := by
  constructor
  · exact (sentBlocks_segmentation (List.replicate 100 7)).1
      (by rw [List.length_replicate]; omega)
  · exact ((sentBlocks_segmentation (List.replicate 1200 7)).2
      (by rw [List.length_replicate]; omega)).1

theorem encodeArgs_eq_flatten (args : List Bytes)
    (hA : ∀ a ∈ args, a.length ≤ 65535) :
    encodeArgs args =
      (args.map (fun a => a.length / 256 :: a.length % 256 :: a)).flatten := by
  induction args with
  | nil => rfl
  | cons a rest ih =>
      have ha := hA a (by simp)
      have h1 : (a.length &&& 0xFF00) >>> 8 = a.length / 256 := by
        rw [and_ff00_shiftRight_eq]
        omega
      have h2 : a.length &&& 0xFF = a.length % 256 := and_255_eq_mod _
      rw [encodeArgs, h1, h2, ih (fun x hx => hA x (by simp [hx]))]
      simp

/-- **C5** (request encoding layout).  For every op name and every argument
list with at most 255 arguments of at most 65535 bytes each,
`formatRequest` returns the op code, the argument count, and for each
argument its length as two big-endian bytes followed by its bytes, with
total length `2 + Σ (2 + |aᵢ|)`. -/
theorem formatRequest_layout (type : HsmOp) (args : List Bytes)
    (hN : args.length ≤ 255) (hA : ∀ a ∈ args, a.length ≤ 65535) :
    formatRequest type args =
      type.code :: args.length ::
        (args.map (fun a => a.length / 256 :: a.length % 256 :: a)).flatten ∧
    (formatRequest type args).length =
      2 + (args.map (fun a => 2 + a.length)).sum := by
  have hcode : type.code &&& 0xFF = type.code := by cases type <;> rfl
  have hcount : args.length &&& 0xFF = args.length := by
    rw [and_255_eq_mod]
    omega
  have hmain : formatRequest type args =
      type.code :: args.length ::
        (args.map (fun a => a.length / 256 :: a.length % 256 :: a)).flatten := by
    rw [formatRequest, hcode, hcount, encodeArgs_eq_flatten args hA]
  refine ⟨hmain, ?_⟩
  rw [hmain]
  simp only [List.length_cons, List.length_flatten, List.map_map]
  have : (args.map (List.length ∘ fun a => a.length / 256 :: a.length % 256 :: a))
      = args.map (fun a => 2 + a.length) := by
    refine List.map_congr_left (fun a _ => ?_)
    simp only [Function.comp_apply, List.length_cons]
    omega
  rw [this]
  omega

/-- Witness for C5 at a concrete signing request with two arguments. -/
theorem formatRequest_layout_witness :
    formatRequest .signBytes [[9, 9], [5]] =
      (HsmOp.signBytes).code :: ([[9, 9], [5]] : List Bytes).length ::
        (([[9, 9], [5]] : List Bytes).map
          (fun a => a.length / 256 :: a.length % 256 :: a)).flatten ∧
    (formatRequest .signBytes [[9, 9], [5]]).length =
      2 + (([[9, 9], [5]] : List Bytes).map (fun a => 2 + a.length)).sum :=
  formatRequest_layout .signBytes [[9, 9], [5]] (by decide) (by decide)

/-- **C6** (argument size limit).  The encoder accepts a 65535-byte
argument and encodes it in full with length bytes `0xFF 0xFF`.  A
65536-byte argument is NOT rejected: the length mask wraps the two length
bytes to `0x00 0x00` while all 65536 argument bytes are still appended,
producing a 65540-byte frame whose length field contradicts its content.
The code therefore never rejects an oversized argument, contradicting its
own byte-format documentation, which bounds every argument by 65535. -/
theorem formatRequest_oversized_argument :
    formatRequest .signBytes [List.replicate 65535 1] =
      5 :: 1 :: 255 :: 255 :: List.replicate 65535 1 ∧
    formatRequest .signBytes [List.replicate 65536 1] =
      5 :: 1 :: 0 :: 0 :: List.replicate 65536 1 ∧
    (formatRequest .signBytes [List.replicate 65536 1]).length = 65540 := by
  have h35 : (List.replicate 65535 (1 : Nat)).length = 65535 := by
    rw [List.length_replicate]
  have h36 : (List.replicate 65536 (1 : Nat)).length = 65536 := by
    rw [List.length_replicate]
  have mcode : HsmOp.code .signBytes &&& 0xFF = 5 := rfl
  have mhi35 : ((65535 : Nat) &&& 0xFF00) >>> 8 = 255 := by
    rw [and_ff00_shiftRight_eq]
  have mlo35 : (65535 : Nat) &&& 0xFF = 255 := by
    rw [and_255_eq_mod]
  have mhi36 : ((65536 : Nat) &&& 0xFF00) >>> 8 = 0 := by
    rw [and_ff00_shiftRight_eq]
  have mlo36 : (65536 : Nat) &&& 0xFF = 0 := by
    rw [and_255_eq_mod]
  have e35 : formatRequest .signBytes [List.replicate 65535 1] =
      5 :: 1 :: 255 :: 255 :: List.replicate 65535 1 := by
    have mcount : List.length [List.replicate 65535 (1 : Nat)] &&& 0xFF = 1 := rfl
    rw [formatRequest, encodeArgs, encodeArgs, List.append_nil, h35,
      mcode, mcount, mhi35, mlo35]
  have e36 : formatRequest .signBytes [List.replicate 65536 1] =
      5 :: 1 :: 0 :: 0 :: List.replicate 65536 1 := by
    have mcount : List.length [List.replicate 65536 (1 : Nat)] &&& 0xFF = 1 := rfl
    rw [formatRequest, encodeArgs, encodeArgs, List.append_nil, h36,
      mcode, mcount, mhi36, mlo36]
  refine ⟨e35, e36, ?_⟩
  rw [e36, List.length_cons, List.length_cons, List.length_cons, List.length_cons,
    List.length_replicate]

theorem encodeArgs_inj (args₁ : List Bytes) :
    ∀ args₂ : List Bytes, args₁.length = args₂.length →
      (∀ a ∈ args₁, a.length ≤ 65535) → (∀ a ∈ args₂, a.length ≤ 65535) →
      encodeArgs args₁ = encodeArgs args₂ → args₁ = args₂ := by
  induction args₁ with
  | nil =>
      intro args₂ hlen _ _ _
      cases args₂ with
      | nil => rfl
      | cons b rest => simp at hlen
  | cons a rest ih =>
      intro args₂ hlen hA₁ hA₂ h
      cases args₂ with
      | nil => simp at hlen
      | cons b rest₂ =>
          rw [encodeArgs, encodeArgs] at h
          obtain ⟨h1, h2, h3⟩ := by simpa only [List.cons.injEq] using h
          have ha := hA₁ a (by simp)
          have hb := hA₂ b (by simp)
          have hlab : a.length = b.length := by
            rw [and_ff00_shiftRight_eq, and_ff00_shiftRight_eq] at h1
            rw [and_255_eq_mod, and_255_eq_mod] at h2
            omega
          obtain ⟨hab, hrest⟩ := List.append_inj h3 hlab
          have := ih rest₂ (by simpa using hlen)
            (fun x hx => hA₁ x (by simp [hx])) (fun x hx => hA₂ x (by simp [hx]))
            hrest
          rw [hab, this]

/-- **C7** (injectivity of the frame encoding).  Over the request-frame
domain of the data model (op one of the six request types, at most 255
arguments, each of at most 65535 bytes), distinct (op, args) tuples
produce distinct byte strings. -/
theorem formatRequest_injective (t₁ t₂ : HsmOp) (args₁ args₂ : List Bytes)
    (hN₁ : args₁.length ≤ 255) (hN₂ : args₂.length ≤ 255)
    (hA₁ : ∀ a ∈ args₁, a.length ≤ 65535) (hA₂ : ∀ a ∈ args₂, a.length ≤ 65535)
    (heq : formatRequest t₁ args₁ = formatRequest t₂ args₂) :
    t₁ = t₂ ∧ args₁ = args₂ := by
  rw [formatRequest, formatRequest] at heq
  obtain ⟨h1, h2, h3⟩ := by simpa only [List.cons.injEq] using heq
  have hc₁ : t₁.code &&& 0xFF = t₁.code := by cases t₁ <;> rfl
  have hc₂ : t₂.code &&& 0xFF = t₂.code := by cases t₂ <;> rfl
  rw [hc₁, hc₂] at h1
  have ht : t₁ = t₂ := by
    cases t₁ <;> cases t₂ <;> simp_all [HsmOp.code]
  have hlen : args₁.length = args₂.length := by
    rw [and_255_eq_mod, and_255_eq_mod] at h2
    omega
  exact ⟨ht, encodeArgs_inj args₁ args₂ hlen hA₁ hA₂ h3⟩

/-- Witness for C7: the hypotheses hold at a concrete pair of equal
frames, so the injectivity theorem applies. -/
theorem formatRequest_injective_witness :
    HsmOp.digestBytes = HsmOp.digestBytes ∧
      ([[3, 4]] : List Bytes) = [[3, 4]] :=
  formatRequest_injective .digestBytes .digestBytes [[3, 4]] [[3, 4]]
    (by decide) (by decide) (by decide) (by decide) rfl

/-- **C1** (one-shot previous-key signing).  For a configuration in state
`twoKeys` whose previous proxy key is `pk` and whose current proxy key is
`ck`, `signBytes` sends the op-5 request with `pk` as the first argument
and on success persists a record in state `loneKey` with the previous key
absent; a second `signBytes` immediately after sends the op-5 request with
`ck` as the first argument. -/
theorem signBytes_one_shot_previous_key (cfg : Configuration)
    (disk : Option Configuration) (pk ck msg msg2 sig sig2 : Bytes)
    (hstate : cfg.state = .twoKeys)
    (hprev : cfg.previousProxyKey = some pk)
    (hpk : cfg.proxyKey = some ck) :
    signBytesOp cfg disk msg (some sig) =
      ⟨.ok sig,
        some { cfg with previousProxyKey := none, state := HsmState.loneKey },
        some { cfg with previousProxyKey := none, state := HsmState.loneKey },
        some (formatRequest .signBytes [pk, msg])⟩ ∧
    (formatRequest .signBytes [pk, msg]).headD 0 = 5 ∧
    (signBytesOp { cfg with previousProxyKey := none, state := HsmState.loneKey }
        (some { cfg with previousProxyKey := none, state := HsmState.loneKey })
        msg2 (some sig2)).sent =
      some (formatRequest .signBytes [ck, msg2]) := by
  obtain ⟨tag, st, pkf, prevf⟩ := cfg
  simp only at hstate hprev hpk
  subst hstate hprev hpk
  exact ⟨rfl, rfl, rfl⟩

/-- Witness for C1 at a concrete two-key configuration. -/
theorem signBytes_one_shot_previous_key_witness :
    signBytesOp ⟨0, .twoKeys, some [1], some [2]⟩ none [7] (some [8]) =
      ⟨.ok [8], some ⟨0, .loneKey, some [1], none⟩,
        some ⟨0, .loneKey, some [1], none⟩,
        some (formatRequest .signBytes [[2], [7]])⟩ ∧
    (formatRequest .signBytes [[2], [7]]).headD 0 = 5 ∧
    (signBytesOp ⟨0, .loneKey, some [1], none⟩ (some ⟨0, .loneKey, some [1], none⟩)
        [9] (some [10])).sent = some (formatRequest .signBytes [[1], [9]]) :=
  signBytes_one_shot_previous_key ⟨0, .twoKeys, some [1], some [2]⟩ none
    [2] [1] [7] [9] [8] [10] rfl rfl rfl

/-- **C2** (failed exchange leaves the persisted record unchanged).  When
`processRequest` throws, none of the four lifecycle operations reaches
`storeConfiguration` or `deleteConfiguration`: the persisted record after
the operation is exactly the record before it. -/
theorem failed_exchange_preserves_disk (cfg : Configuration)
    (mem disk : Option Configuration) (newKey bytes : Bytes) :
    (generateKeysOp cfg disk newKey none).disk = disk ∧
    (rotateKeysOp cfg disk newKey none).disk = disk ∧
    (signBytesOp cfg disk bytes none).disk = disk ∧
    (eraseKeysOp mem disk none).disk = disk := by
  refine ⟨?_, ?_, ?_, rfl⟩
  · rw [generateKeysOp]
    split <;> rfl
  · rw [rotateKeysOp]
    split
    · rfl
    · split <;> rfl
  · rw [signBytesOp]
    split
    · rfl
    · split
      · rfl
      · split
        · cases hc : cfg.proxyKey <;> rfl
        · simp_all

/-- **C3** (forbidden operations fail fast).  An operation invoked in a
lifecycle state its `STATES` row forbids throws `invalidState` with no
request formatted or sent (`sent = none`) and both the in-memory and the
persisted configuration unchanged, whatever the HSM would have answered. -/
theorem forbidden_state_rejected (cfg : Configuration) (disk : Option Configuration)
    (newKey bytes : Bytes) :
    (cfg.state ≠ .keyless → ∀ hsm,
      generateKeysOp cfg disk newKey hsm = ⟨.err .invalidState, some cfg, disk, none⟩) ∧
    (cfg.state ≠ .loneKey → ∀ hsm,
      rotateKeysOp cfg disk newKey hsm = ⟨.err .invalidState, some cfg, disk, none⟩) ∧
    (cfg.state = .keyless → ∀ hsm,
      signBytesOp cfg disk bytes hsm = ⟨.err .invalidState, some cfg, disk, none⟩) := by
  refine ⟨?_, ?_, ?_⟩
  · intro h hsm
    have hv : validateEvent cfg.state .generateKeys = false := by
      cases hs : cfg.state <;> simp_all [validateEvent, nextState]
    simp [generateKeysOp, hv]
  · intro h hsm
    have hv : validateEvent cfg.state .rotateKeys = false := by
      cases hs : cfg.state <;> simp_all [validateEvent, nextState]
    simp [rotateKeysOp, hv]
  · intro h hsm
    have hv : validateEvent cfg.state .signBytes = false := by
      rw [h]
      rfl
    simp [signBytesOp, hv]

/-- Witness for C3: a two-key configuration rejects `generateKeys` and
`rotateKeys`, and a keyless configuration rejects `signBytes`. -/
theorem forbidden_state_rejected_witness :
    generateKeysOp ⟨0, .twoKeys, some [1], some [2]⟩ none [3] (some [4]) =
      ⟨.err .invalidState, some ⟨0, .twoKeys, some [1], some [2]⟩, none, none⟩ ∧
    rotateKeysOp ⟨0, .twoKeys, some [1], some [2]⟩ none [3] (some [4]) =
      ⟨.err .invalidState, some ⟨0, .twoKeys, some [1], some [2]⟩, none, none⟩ ∧
    signBytesOp ⟨1, .keyless, none, none⟩ none [5] (some [6]) =
      ⟨.err .invalidState, some ⟨1, .keyless, none, none⟩, none, none⟩ :=
  ⟨(forbidden_state_rejected ⟨0, .twoKeys, some [1], some [2]⟩ none [3] [0]).1
      (by decide) (some [4]),
   (forbidden_state_rejected ⟨0, .twoKeys, some [1], some [2]⟩ none [3] [0]).2.1
      (by decide) (some [4]),
   (forbidden_state_rejected ⟨1, .keyless, none, none⟩ none [0] [5]).2.2
      rfl (some [6])⟩

/-- **C10** (pre-exchange mutation diverges memory from disk).
`rotateKeys` writes `$previousProxyKey` into the in-memory configuration
before the HSM exchange and `signBytes` removes it before the exchange;
when the exchange fails, the in-memory record differs from the persisted
one and violates the state ⇔ keys invariant, and a subsequent `signBytes`
on the mutated in-memory record sends the never-accepted previous key. -/
theorem pre_exchange_mutation_divergence (cfg cfg2 : Configuration)
    (k pk msg newKey sig : Bytes)
    (hstate : cfg.state = .loneKey) (hpk : cfg.proxyKey = some k)
    (hprev : cfg.previousProxyKey = none)
    (h2state : cfg2.state = .twoKeys) (h2prev : cfg2.previousProxyKey = some pk) :
    rotateKeysOp cfg (some cfg) newKey none =
      ⟨.err .requestFailed, some { cfg with previousProxyKey := some k }, some cfg,
        some (formatRequest .rotateKeys [k, newKey])⟩ ∧
    ({ cfg with previousProxyKey := some k } : Configuration) ≠ cfg ∧
    ¬ stateKeysInvariant { cfg with previousProxyKey := some k } ∧
    (signBytesOp { cfg with previousProxyKey := some k } (some cfg) msg (some sig)).sent =
      some (formatRequest .signBytes [k, msg]) ∧
    signBytesOp cfg2 (some cfg2) msg none =
      ⟨.err .requestFailed, some { cfg2 with previousProxyKey := none }, some cfg2,
        some (formatRequest .signBytes [pk, msg])⟩ ∧
    ({ cfg2 with previousProxyKey := none } : Configuration) ≠ cfg2 ∧
    ¬ stateKeysInvariant { cfg2 with previousProxyKey := none } := by
  obtain ⟨tag, st, pkf, prevf⟩ := cfg
  obtain ⟨tag2, st2, pkf2, prevf2⟩ := cfg2
  simp only at hstate hpk hprev h2state h2prev
  subst hstate hpk hprev h2state h2prev
  refine ⟨rfl, ?_, ?_, rfl, rfl, ?_, ?_⟩
  · intro h
    exact Option.noConfusion (congrArg Configuration.previousProxyKey h)
  · intro hinv
    simpa using hinv.2.1.mp rfl
  · intro h
    exact Option.noConfusion (congrArg Configuration.previousProxyKey h)
  · intro hinv
    simpa using hinv.2.2.mp rfl

/-- Witness for C10 at concrete lone-key and two-key configurations. -/
theorem pre_exchange_mutation_divergence_witness :
    rotateKeysOp ⟨0, .loneKey, some [1], none⟩ (some ⟨0, .loneKey, some [1], none⟩)
        [3] none =
      ⟨.err .requestFailed, some ⟨0, .loneKey, some [1], some [1]⟩,
        some ⟨0, .loneKey, some [1], none⟩,
        some (formatRequest .rotateKeys [[1], [3]])⟩ ∧
    (⟨0, .loneKey, some [1], some [1]⟩ : Configuration) ≠ ⟨0, .loneKey, some [1], none⟩ ∧
    ¬ stateKeysInvariant ⟨0, .loneKey, some [1], some [1]⟩ ∧
    (signBytesOp ⟨0, .loneKey, some [1], some [1]⟩ (some ⟨0, .loneKey, some [1], none⟩)
        [7] (some [8])).sent = some (formatRequest .signBytes [[1], [7]]) ∧
    signBytesOp ⟨9, .twoKeys, some [5], some [6]⟩ (some ⟨9, .twoKeys, some [5], some [6]⟩)
        [7] none =
      ⟨.err .requestFailed, some ⟨9, .twoKeys, some [5], none⟩,
        some ⟨9, .twoKeys, some [5], some [6]⟩,
        some (formatRequest .signBytes [[6], [7]])⟩ ∧
    (⟨9, .twoKeys, some [5], none⟩ : Configuration) ≠ ⟨9, .twoKeys, some [5], some [6]⟩ ∧
    ¬ stateKeysInvariant ⟨9, .twoKeys, some [5], none⟩ :=
  pre_exchange_mutation_divergence ⟨0, .loneKey, some [1], none⟩
    ⟨9, .twoKeys, some [5], some [6]⟩ [1] [6] [7] [3] [8] rfl rfl rfl rfl rfl

theorem sentBlocks_ne_nil (request : Bytes) : sentBlocks request ≠ [] := by
  simp [sentBlocks]

theorem processRequestGo_succ (request : Bytes) (envs : Nat → AttemptEnv)
    (fuel i : Nat) :
    processRequestGo request envs (fuel + 1) i =
      match runAttempt request (envs i) with
      | (.ok response, events) => (.inl (.ok response), events)
      | (.fail cause, events) =>
          if fuel = 0 then (.inr (.retryExhausted cause), events)
          else
            ((processRequestGo request envs fuel (i + 1)).1,
              (if (envs i).peripheralFound then events ++ [.disconnected]
                else events) ++ (processRequestGo request envs fuel (i + 1)).2) := by
  rw [processRequestGo]

theorem sendBlocks_all_ok (env : AttemptEnv) (blocks : List Bytes) :
    ∀ i : Nat,
      (∀ j, ¬ ((env.blockResponse j).length = 1 ∧ 1 < (env.blockResponse j).headD 0)) →
      blocks ≠ [] →
      sendBlocks env i blocks =
        (.ok (env.blockResponse (i + blocks.length - 1)),
          blocks.map BleEvent.wroteBlock) := by
  induction blocks with
  | nil => intro i _ hne; simp at hne
  | cons b rest ih =>
      intro i h hne
      have hunf : sendBlocks env i (b :: rest) =
          if (env.blockResponse i).length = 1 ∧ 1 < (env.blockResponse i).headD 0 then
            (.fail (.blockRejected ((env.blockResponse i).headD 0)), [.wroteBlock b])
          else
            match rest with
            | [] => (.ok (env.blockResponse i), [.wroteBlock b])
            | _ :: _ =>
                ((sendBlocks env (i + 1) rest).1,
                  .wroteBlock b :: (sendBlocks env (i + 1) rest).2) := rfl
      rw [hunf, if_neg (h i)]
      cases rest with
      | nil => simp
      | cons c rest2 =>
          rw [ih (i + 1) h (by simp)]
          have harith : i + 1 + (c :: rest2).length - 1
              = i + (b :: c :: rest2).length - 1 := by
            simp only [List.length_cons]
            omega
          rw [harith]
          simp

theorem runAttempt_clean (request : Bytes) (env : AttemptEnv)
    (h1 : env.peripheralFound = true) (h2 : env.connectSucceeds = true)
    (h3 : env.serviceFound = true) (h4 : env.hasCharacteristics = true)
    (h5 : ∀ j, ¬ ((env.blockResponse j).length = 1 ∧ 1 < (env.blockResponse j).headD 0)) :
    runAttempt request env =
      (.ok (env.blockResponse ((sentBlocks request).length - 1)),
        .connected :: ((sentBlocks request).map BleEvent.wroteBlock ++
          [.disconnected])) := by
  rw [runAttempt,
    sendBlocks_all_ok env (sentBlocks request) 0 h5 (sentBlocks_ne_nil request)]
  simp [h1, h2, h3, h4]

/-- **C8** (bounded retry).  `processRequest` makes at most three attempts:
a fully clean first attempt sends every block in order and returns the
response of the primary (last) block; a failed attempt is retried while
budget remains; after the third failed attempt the request fails with a
retry-exhausted error carrying the cause of the last attempt; and the
result never depends on any environment beyond the first three attempts. -/
theorem processRequest_bounded_retry (request : Bytes) (envs : Nat → AttemptEnv) :
    ((envs 0).peripheralFound = true → (envs 0).connectSucceeds = true →
      (envs 0).serviceFound = true → (envs 0).hasCharacteristics = true →
      (∀ j, ¬ (((envs 0).blockResponse j).length = 1 ∧
        1 < ((envs 0).blockResponse j).headD 0)) →
      processRequest request envs =
        (.inl (.ok ((envs 0).blockResponse ((sentBlocks request).length - 1))),
          .connected :: ((sentBlocks request).map BleEvent.wroteBlock ++
            [.disconnected]))) ∧
    (∀ r, (runAttempt request (envs 0)).1 = .ok r →
      (processRequest request envs).1 = .inl (.ok r)) ∧
    (∀ c0 r, (runAttempt request (envs 0)).1 = .fail c0 →
      (runAttempt request (envs 1)).1 = .ok r →
      (processRequest request envs).1 = .inl (.ok r)) ∧
    (∀ c0 c1 r, (runAttempt request (envs 0)).1 = .fail c0 →
      (runAttempt request (envs 1)).1 = .fail c1 →
      (runAttempt request (envs 2)).1 = .ok r →
      (processRequest request envs).1 = .inl (.ok r)) ∧
    (∀ c0 c1 c2, (runAttempt request (envs 0)).1 = .fail c0 →
      (runAttempt request (envs 1)).1 = .fail c1 →
      (runAttempt request (envs 2)).1 = .fail c2 →
      (processRequest request envs).1 = .inr (.retryExhausted c2)) ∧
    (∀ envs2 : Nat → AttemptEnv, (∀ i < 3, envs i = envs2 i) →
      processRequest request envs = processRequest request envs2) := by
  have hgo3 : processRequest request envs = processRequestGo request envs (2 + 1) 0 := rfl
  refine ⟨?_, ?_, ?_, ?_, ?_, ?_⟩
  · intro h1 h2 h3 h4 h5
    rw [hgo3, processRequestGo_succ, runAttempt_clean request (envs 0) h1 h2 h3 h4 h5]
  · intro r h0
    rcases ha : runAttempt request (envs 0) with ⟨res0, ev0⟩
    rw [ha] at h0
    simp only at h0
    subst h0
    rw [hgo3, processRequestGo_succ, ha]
  · intro c0 r h0 h1
    rcases ha : runAttempt request (envs 0) with ⟨res0, ev0⟩
    rcases hb : runAttempt request (envs 1) with ⟨res1, ev1⟩
    rw [ha] at h0
    rw [hb] at h1
    simp only at h0 h1
    subst h0 h1
    rw [hgo3, processRequestGo_succ, ha]
    dsimp only
    rw [if_neg (by omega : ¬ (2 : Nat) = 0)]
    rw [show processRequestGo request envs 2 (0 + 1) = processRequestGo request envs (1 + 1) 1 from rfl,
      processRequestGo_succ, hb]
  · intro c0 c1 r h0 h1 h2
    rcases ha : runAttempt request (envs 0) with ⟨res0, ev0⟩
    rcases hb : runAttempt request (envs 1) with ⟨res1, ev1⟩
    rcases hc : runAttempt request (envs 2) with ⟨res2, ev2⟩
    rw [ha] at h0
    rw [hb] at h1
    rw [hc] at h2
    simp only at h0 h1 h2
    subst h0 h1 h2
    rw [hgo3, processRequestGo_succ, ha]
    dsimp only
    rw [if_neg (by omega : ¬ (2 : Nat) = 0)]
    rw [show processRequestGo request envs 2 (0 + 1) = processRequestGo request envs (1 + 1) 1 from rfl,
      processRequestGo_succ, hb]
    dsimp only
    rw [if_neg (by omega : ¬ (1 : Nat) = 0)]
    rw [show processRequestGo request envs 1 (1 + 1) = processRequestGo request envs (0 + 1) 2 from rfl,
      processRequestGo_succ, hc]
  · intro c0 c1 c2 h0 h1 h2
    rcases ha : runAttempt request (envs 0) with ⟨res0, ev0⟩
    rcases hb : runAttempt request (envs 1) with ⟨res1, ev1⟩
    rcases hc : runAttempt request (envs 2) with ⟨res2, ev2⟩
    rw [ha] at h0
    rw [hb] at h1
    rw [hc] at h2
    simp only at h0 h1 h2
    subst h0 h1 h2
    rw [hgo3, processRequestGo_succ, ha]
    dsimp only
    rw [if_neg (by omega : ¬ (2 : Nat) = 0)]
    rw [show processRequestGo request envs 2 (0 + 1) = processRequestGo request envs (1 + 1) 1 from rfl,
      processRequestGo_succ, hb]
    dsimp only
    rw [if_neg (by omega : ¬ (1 : Nat) = 0)]
    rw [show processRequestGo request envs 1 (1 + 1) = processRequestGo request envs (0 + 1) 2 from rfl,
      processRequestGo_succ, hc]
    rfl
  · intro envs2 hag
    have hgo : ∀ fuel i, i + fuel ≤ 3 →
        processRequestGo request envs fuel i = processRequestGo request envs2 fuel i := by
      intro fuel
      induction fuel with
      | zero => intro i _; rfl
      | succ n ih =>
          intro i hle
          have henv : envs i = envs2 i := hag i (by omega)
          rw [processRequestGo_succ, processRequestGo_succ, henv,
            ih (i + 1) (by omega)]
    exact hgo 3 0 (by omega)

/-- Witness for C8: a clean environment answers on the first attempt, and
an environment whose HSM rejects every block exhausts the three-attempt
budget with the last cause. -/
theorem processRequest_bounded_retry_witness :
    processRequest [4, 0] (fun _ => ⟨true, true, true, true, fun _ => [7, 7]⟩) =
      (.inl (.ok [7, 7]), [.connected, .wroteBlock [4, 0], .disconnected]) ∧
    (processRequest [4, 0] (fun _ => ⟨true, true, true, true, fun _ => [3]⟩)).1 =
      .inr (.retryExhausted (.blockRejected 3)) :=
  ⟨(processRequest_bounded_retry [4, 0]
      (fun _ => ⟨true, true, true, true, fun _ => [7, 7]⟩)).1
      rfl rfl rfl rfl (fun j => by simp),
   (processRequest_bounded_retry [4, 0]
      (fun _ => ⟨true, true, true, true, fun _ => [3]⟩)).2.2.2.2.1
      (.blockRejected 3) (.blockRejected 3) (.blockRejected 3) rfl rfl rfl⟩

/-- **C9** (evidence against disconnect-on-every-exit).  In an environment
where the peripheral is found, connects, and exposes the UART service and
characteristics but the HSM rejects every block (status byte 2), all three
attempts fail; the first two catch clauses disconnect, but the third
attempt throws the retry-exhausted error while the peripheral is still
connected: the trace ends `connected, wroteBlock` with no disconnect, so
an exit path leaves the peripheral connected. -/
theorem processRequest_leaves_connected_on_final_failure :
    processRequest [4, 0] (fun _ => ⟨true, true, true, true, fun _ => [2]⟩) =
      (.inr (.retryExhausted (.blockRejected 2)),
        [.connected, .wroteBlock [4, 0], .disconnected,
          .connected, .wroteBlock [4, 0], .disconnected,
          .connected, .wroteBlock [4, 0]]) ∧
    connectedAfter
      (processRequest [4, 0] (fun _ => ⟨true, true, true, true, fun _ => [2]⟩)).2 =
      true := by
  exact ⟨rfl, rfl⟩

end HSMProxy
